import Mathlib

/-!
Verification development for the X-Ray decision-observability SDK
(`src/lib/xray/types.ts`, the SDK instance, and the in-memory store).

The TypeScript source is shallowly embedded: mutable objects become explicit
state records, `Date.now()` becomes an explicit timestamp parameter (one
parameter per call site, since distinct calls may return distinct values),
and JS `undefined`-able fields become `Option`.  Lifecycle callbacks
(`onStepStart`, `onStepComplete`, `onExecutionComplete`) and store autosave
are side-effect hooks that do not touch the trace state and are not modelled
in the builder layer; the store's own subscriber notification is modelled
explicitly below.
-/

/-- Opaque JSON-like payload values (`unknown` fields of the source:
`input`, `output`, `data`, `metadata` values, `finalOutput`).  The core
never inspects these; they are carried through unchanged. -/
inductive Val where
  | null
  | bool (b : Bool)
  | num (n : Int)
  | str (s : String)
  | arr (xs : List Val)
  | obj (fields : List (String × Val))

/-- Source `type StepStatus = 'pending' | 'running' | 'completed' | 'failed'` -/
inductive StepStatus where
  | pending
  | running
  | completed
  | failed
deriving DecidableEq, Repr

/-- Source `'llm' | 'search' | 'filter' | 'rank' | 'transform' | 'custom'` -/
inductive StepType where
  | llm
  | search
  | filter
  | rank
  | transform
  | custom
deriving DecidableEq, Repr

/-- Source `interface FilterResult { passed: boolean; detail: string }` -/
structure FilterResult where
  passed : Bool
  detail : String

/-- Source `{ value: unknown; rule: string }` entries of `filtersApplied` -/
structure FilterConfig where
  value : Val
  rule : String

/-- Source `interface CandidateEvaluation` (scores are JS numbers; the claims never
inspect them, so they are carried as integers). -/
structure CandidateEvaluation where
  id : String
  data : Val
  filterResults : List (String × FilterResult)
  qualified : Bool
  score : Option Int
  scoreBreakdown : Option (List (String × Int))
  rank : Option Int

/-- Source `interface StepMetrics` -/
structure StepMetrics where
  inputCount : Option Int
  outputCount : Option Int
  passedCount : Option Int
  failedCount : Option Int
  duration : Option Int
deriving DecidableEq, Repr

/-- The all-`undefined` metrics object (spread base when the caller passed no
metrics). -/
def StepMetrics.empty : StepMetrics :=
  ⟨none, none, none, none, none⟩

/-- Source `interface XRayStep`.  `input` is required in the TS interface but the
builder stages a `Partial<XRayStep>`, so at completion it may still be
absent; it is therefore an `Option` here, like the optional fields. -/
structure XRayStep where
  id : String
  name : String
  type : StepType
  status : StepStatus
  startTime : Int
  endTime : Option Int
  input : Option Val
  output : Option Val
  reasoning : Option String
  metrics : Option StepMetrics
  evaluations : Option (List CandidateEvaluation)
  filtersApplied : Option (List (String × FilterConfig))
  metadata : Option (List (String × Val))
  error : Option String

/-- Source `interface XRayExecution` -/
structure XRayExecution where
  id : String
  name : String
  description : Option String
  startTime : Int
  endTime : Option Int
  status : StepStatus
  steps : List XRayStep
  context : Option (List (String × Val))
  finalOutput : Option Val
  tags : Option (List String)

/-- Mutable state of an `XRayInstance` (the execution builder).  The config
callbacks and `autoSave` flag only trigger unmodelled side effects. -/
structure XRayInstanceState where
  execution : XRayExecution

/-- State captured by the step sub-builder closure: the staged
`stepData : Partial<XRayStep>` and the captured `startTime` local. -/
structure StepBuilderState where
  stepData : XRayStep
  startTime : Int

/-- Source `XRayInstance.step(name, type)`: builds the initial `stepData`
(`id`, `name`, `type`, `status: 'running'`, `startTime`), fires
`onStepStart`, and returns the sub-builder.  It does not touch
`this.execution`; the instance state is returned unchanged.
`stepId` stands for the `generateId()` result and `now` for `Date.now()`. -/
def XRayInstance.step (inst : XRayInstanceState) (name : String) (ty : StepType)
    (stepId : String) (now : Int) : XRayInstanceState × StepBuilderState :=
  (inst,
   { stepData :=
       { id := stepId
         name := name
         type := ty
         status := .running
         startTime := now
         endTime := none
         input := none
         output := none
         reasoning := none
         metrics := none
         evaluations := none
         filtersApplied := none
         metadata := none
         error := none }
     startTime := now })

/-- Source `withInput(input)` -/
def StepBuilder.withInput (b : StepBuilderState) (input : Val) : StepBuilderState :=
  { b with stepData := { b.stepData with input := some input } }

/-- Source `withFilters(filters)` -/
def StepBuilder.withFilters (b : StepBuilderState)
    (filters : List (String × FilterConfig)) : StepBuilderState :=
  { b with stepData := { b.stepData with filtersApplied := some filters } }

/-- Source `withEvaluations(evaluations)` -/
def StepBuilder.withEvaluations (b : StepBuilderState)
    (evaluations : List CandidateEvaluation) : StepBuilderState :=
  { b with stepData := { b.stepData with evaluations := some evaluations } }

/-- Source `withReasoning(reasoning)` -/
def StepBuilder.withReasoning (b : StepBuilderState) (reasoning : String) : StepBuilderState :=
  { b with stepData := { b.stepData with reasoning := some reasoning } }

/-- Source `withMetadata(metadata)` -/
def StepBuilder.withMetadata (b : StepBuilderState)
    (metadata : List (String × Val)) : StepBuilderState :=
  { b with stepData := { b.stepData with metadata := some metadata } }

/-- One call to any of the five chainable setters. -/
inductive SetterCall where
  | withInput (input : Val)
  | withFilters (filters : List (String × FilterConfig))
  | withEvaluations (evaluations : List CandidateEvaluation)
  | withReasoning (reasoning : String)
  | withMetadata (metadata : List (String × Val))

def applySetter (b : StepBuilderState) : SetterCall → StepBuilderState
  | .withInput v => StepBuilder.withInput b v
  | .withFilters fs => StepBuilder.withFilters b fs
  | .withEvaluations es => StepBuilder.withEvaluations b es
  | .withReasoning r => StepBuilder.withReasoning b r
  | .withMetadata m => StepBuilder.withMetadata b m

/-- A chain of setter calls in source order. -/
def applySetters (b : StepBuilderState) (calls : List SetterCall) : StepBuilderState :=
  calls.foldl applySetter b

/-- Source `{ ...metrics, duration: <d> }`: the caller-supplied metrics (or none)
spread first, then `duration` overwritten with the computed value. -/
def mergeMetricsDuration (metrics : Option StepMetrics) (d : Int) : StepMetrics :=
  { metrics.getD StepMetrics.empty with duration := some d }

/-- Source `complete(output, metrics?)`.  The source reads the clock twice inside
the object literal — `endTime: Date.now()` then
`duration: Date.now() - startTime` — so the two samples are separate
parameters `tEnd` and `tDur` (under a monotone clock `tEnd ≤ tDur`).
The completed step is a fresh object spread-copied from `stepData`; it is
pushed onto `this.execution.steps` and returned. -/
def StepBuilder.complete (inst : XRayInstanceState) (b : StepBuilderState)
    (output : Val) (metrics : Option StepMetrics) (tEnd tDur : Int) :
    XRayInstanceState × XRayStep :=
  let completedStep : XRayStep :=
    { b.stepData with
        output := some output
        status := .completed
        endTime := some tEnd
        metrics := some (mergeMetricsDuration metrics (tDur - b.startTime)) }
  ({ inst with execution :=
       { inst.execution with steps := inst.execution.steps ++ [completedStep] } },
   completedStep)

/-- Source `fail(error)`: like `complete` but sets `status: 'failed'`, `error`, and
metrics containing only the computed duration (again two clock reads). -/
def StepBuilder.fail (inst : XRayInstanceState) (b : StepBuilderState)
    (error : String) (tEnd tDur : Int) :
    XRayInstanceState × XRayStep :=
  let failedStep : XRayStep :=
    { b.stepData with
        status := .failed
        endTime := some tEnd
        error := some error
        metrics := some { StepMetrics.empty with duration := some (tDur - b.startTime) } }
  ({ inst with execution :=
       { inst.execution with steps := inst.execution.steps ++ [failedStep] } },
   failedStep)

/-- Last-write-wins assignment `obj[key] = value` on a JS object modelled as
an association list in insertion order. -/
def setKey (m : List (String × Val)) (key : String) (value : Val) : List (String × Val) :=
  if m.any (fun p => p.1 == key) then
    m.map (fun p => if p.1 == key then (key, value) else p)
  else m ++ [(key, value)]

/-- Source `addContext(key, value)` -/
def XRayInstance.addContext (inst : XRayInstanceState) (key : String) (value : Val) :
    XRayInstanceState :=
  { inst with execution :=
      { inst.execution with
          context := some (setKey (inst.execution.context.getD []) key value) } }

/-- Source `finalize(finalOutput?)`: computes the aggregate status from the owned
steps, stamps `endTime = now`, sets `finalOutput`, fires
`onExecutionComplete` and autosaves (unmodelled hooks), and returns the
execution. -/
def XRayInstance.finalize (inst : XRayInstanceState) (finalOutput : Option Val) (now : Int) :
    XRayInstanceState × XRayExecution :=
  let hasFailedStep := inst.execution.steps.any (fun s => s.status == .failed)
  let e : XRayExecution :=
    { inst.execution with
        endTime := some now
        status := if hasFailedStep then .failed else .completed
        finalOutput := finalOutput }
  ({ inst with execution := e }, e)

/-!  ## Trace store (`InMemoryXRayStore`)  -/

/-- A subscriber callback.  JS `Set` identity is function-reference
identity, modelled by `cid`; `run` is the callback's behaviour, returning
`Except.error` when the function would throw. -/
structure Subscriber where
  cid : Nat
  run : XRayExecution → Except String Unit

/-- Source `this.subscribers.forEach(callback => callback(execution))`: invokes the
callbacks in insertion order; a thrown exception aborts the iteration and
propagates.  Returns the list of invoked callback identities and the
propagated exception message, if any. -/
def notifySubscribers : List Subscriber → XRayExecution → List Nat × Option String
  | [], _ => ([], none)
  | c :: rest, e =>
    match c.run e with
    | .error msg => ([c.cid], some msg)
    | .ok _ =>
      let r := notifySubscribers rest e
      (c.cid :: r.1, r.2)

/-- Source `Map.set(key, value)`: replaces in place when the key is present
(preserving insertion order), otherwise appends. -/
def mapSet (m : List (String × XRayExecution)) (k : String) (v : XRayExecution) :
    List (String × XRayExecution) :=
  if m.any (fun p => p.1 == k) then
    m.map (fun p => if p.1 == k then (k, v) else p)
  else m ++ [(k, v)]

/-- State of `InMemoryXRayStore`: `executions : Map<string, XRayExecution>`
(association list in insertion order) and `subscribers : Set<callback>`
(list in insertion order, no duplicate identities). -/
structure StoreState where
  executions : List (String × XRayExecution)
  subscribers : List Subscriber

/-- Source `save(execution)`: writes the entry, then notifies every subscriber.
Besides the updated store it returns the notification outcome (invoked
callback identities, propagated exception if one threw). -/
def StoreState.save (st : StoreState) (e : XRayExecution) :
    StoreState × List Nat × Option String :=
  ({ st with executions := mapSet st.executions e.id e },
   notifySubscribers st.subscribers e)

/-- Source `get(id)` -/
def StoreState.get (st : StoreState) (id : String) : Option XRayExecution :=
  (st.executions.find? (fun p => p.1 == id)).map Prod.snd

/-- Source `subscribe(callback)`: `Set.add` — a no-op when the same function
reference is already registered. -/
def StoreState.subscribe (st : StoreState) (c : Subscriber) : StoreState :=
  if st.subscribers.any (fun s => s.cid == c.cid) then st
  else { st with subscribers := st.subscribers ++ [c] }

/-- The unsubscribe closure returned by `subscribe`:
`() => this.subscribers.delete(callback)` — removes the registration for
that function reference. -/
def StoreState.unsubscribe (st : StoreState) (c : Subscriber) : StoreState :=
  { st with subscribers := st.subscribers.filter (fun s => s.cid != c.cid) }

/-- Source `options` of `findAll` -/
inductive OrderKey where
  | startTime
  | endTime
  | name
deriving DecidableEq, Repr

inductive OrderDir where
  | asc
  | desc
deriving DecidableEq, Repr

structure QueryOptions where
  limit : Option Nat := none
  offset : Option Nat := none
  status : Option StepStatus := none
  tags : Option (List String) := none
  fromTime : Option Int := none
  toTime : Option Int := none
  orderBy : Option OrderKey := none
  orderDirection : Option OrderDir := none

/-- Source `e.tags?.includes(tag)` (`undefined` tags never match). -/
def execHasTag (e : XRayExecution) (tag : String) : Bool :=
  match e.tags with
  | some ts => ts.contains tag
  | none => false

/-- Source `a.localeCompare(b)` determinized as code-point comparison. -/
def strCmp (a b : String) : Int :=
  match compare a b with
  | .lt => -1
  | .eq => 0
  | .gt => 1

/-- The comparator passed to `results.sort` for a given `orderBy` /
`orderDirection` (missing `endTime` reads as `0` via `a.endTime || 0`). -/
def compareExec (key : OrderKey) (dir : OrderDir) (a b : XRayExecution) : Int :=
  match key with
  | .startTime =>
    match dir with
    | .asc => a.startTime - b.startTime
    | .desc => b.startTime - a.startTime
  | .endTime =>
    match dir with
    | .asc => a.endTime.getD 0 - b.endTime.getD 0
    | .desc => b.endTime.getD 0 - a.endTime.getD 0
  | .name =>
    match dir with
    | .asc => strCmp a.name b.name
    | .desc => strCmp b.name a.name

/-- Stable insertion of `a` into `l`: `a` goes before the first element it
does not sort strictly after. -/
def insertSortedBy (le : α → α → Bool) (a : α) : List α → List α
  | [] => [a]
  | b :: bs => if le a b then a :: b :: bs else b :: insertSortedBy le a bs

/-- Source `Array.prototype.sort(cmp)` (stable, per ES2019) determinized as stable
insertion sort by the comparator. -/
def jsSortBy (le : α → α → Bool) : List α → List α
  | [] => []
  | a :: as => insertSortedBy le a (jsSortBy le as)

/-- The filter + sort pipeline of `findAll` (everything before pagination):
status, tags, fromTime and toTime filters ANDed in source order, then the
comparator sort with defaults `orderBy: 'startTime'`,
`orderDirection: 'desc'`. -/
def StoreState.queryBase (st : StoreState) (o : QueryOptions) : List XRayExecution :=
  let results := st.executions.map Prod.snd
  let results :=
    match o.status with
    | some s => results.filter (fun e => e.status == s)
    | none => results
  let results :=
    match o.tags with
    | some ts =>
      if 0 < ts.length then
        results.filter (fun e => ts.any (fun tag => execHasTag e tag))
      else results
    | none => results
  let results :=
    match o.fromTime with
    | some f => results.filter (fun e => decide (f ≤ e.startTime))
    | none => results
  let results :=
    match o.toTime with
    | some t => results.filter (fun e => decide (e.startTime ≤ t))
    | none => results
  let key := o.orderBy.getD .startTime
  let dir := o.orderDirection.getD .desc
  jsSortBy (fun a b => decide (compareExec key dir a b ≤ 0)) results

/-- Source `findAll(options)`: filter, sort, then
`results.slice(offset, offset + limit)` with `offset = options.offset || 0`
and `limit = options.limit || results.length` (so a `0` limit falls back to
the full length). -/
def StoreState.findAll (st : StoreState) (o : QueryOptions) : List XRayExecution :=
  let results := st.queryBase o
  let offset := o.offset.getD 0
  let limit :=
    match o.limit with
    | some l => if l = 0 then results.length else l
    | none => results.length
  (results.drop offset).take limit

/-- Source `findByTags(tags)` -/
def StoreState.findByTags (st : StoreState) (tags : List String) : List XRayExecution :=
  st.findAll { tags := some tags }

/-!  ## Reference-aliasing model for snapshots (`getExecution`, store `save`)

In JS the `steps` field of an execution object is a reference to a mutable
array.  `getExecution(): return { ...this.execution }` copies the top-level
fields only, so the copy shares that array.  The heap below maps array
addresses to step lists; an execution object holds the address. -/

structure StepsHeap where
  arrays : List (List XRayStep)

/-- An execution object as held in memory: top-level fields plus the
reference to the steps array.  (`context`/`tags` are likewise references;
one shared array suffices for the aliasing claims.) -/
structure ExecObj where
  id : String
  name : String
  startTime : Int
  endTime : Option Int
  status : StepStatus
  stepsRef : Nat
  finalOutput : Option Val
  tags : Option (List String)

/-- Dereference the steps array. -/
def StepsHeap.read (h : StepsHeap) (r : Nat) : List XRayStep :=
  h.arrays.getD r []

/-- Source `steps.push(step)` through a reference. -/
def StepsHeap.push (h : StepsHeap) (r : Nat) (s : XRayStep) : StepsHeap :=
  ⟨h.arrays.set r (h.arrays.getD r [] ++ [s])⟩

/-- Source `getExecution(): return { ...this.execution }` — the spread copies every
top-level field as-is, including the `steps` array reference. -/
def ExecObj.getExecution (e : ExecObj) : ExecObj :=
  ⟨e.id, e.name, e.startTime, e.endTime, e.status, e.stepsRef, e.finalOutput, e.tags⟩

/-- Modelled from the spec: "returns a deep, decoupled copy of the current
Execution state" — the deep copy the spec describes (absent from the
source) would also clone the steps array into a fresh address. -/
def ExecObj.deepCopy (h : StepsHeap) (e : ExecObj) : StepsHeap × ExecObj :=
  (⟨h.arrays ++ [h.read e.stepsRef]⟩, { e with stepsRef := h.arrays.length })

/-- Source `store.save(execution)` stores the execution object itself
(`Map.set(execution.id, execution)`) — the stored entry holds the same
steps-array reference as the builder's execution. -/
def saveObj (store : List (String × ExecObj)) (e : ExecObj) : List (String × ExecObj) :=
  if store.any (fun p => p.1 == e.id) then
    store.map (fun p => if p.1 == e.id then (e.id, e) else p)
  else store ++ [(e.id, e)]

/-!  ## Concrete sample data for counterexamples and witnesses -/

/-- A fresh execution as `createXRay` builds it (empty step list). -/
def mkExec (id : String) (startTime : Int) (tags : Option (List String)) : XRayExecution :=
  { id := id
    name := id
    description := none
    startTime := startTime
    endTime := none
    status := .running
    steps := []
    context := none
    finalOutput := none
    tags := tags }

def sampleExec : XRayExecution := mkExec "exec-1" 0 none

def sampleInst : XRayInstanceState := ⟨sampleExec⟩

/-- An opened step sub-builder on `sampleInst`. -/
def sampleBuilder : StepBuilderState :=
  (XRayInstance.step sampleInst "s" .custom "step-1" 0).2

/-- A completed step value used to mutate shared arrays in the aliasing
model. -/
def sampleStep : XRayStep :=
  { id := "step-9"
    name := "pushed"
    type := .custom
    status := .completed
    startTime := 0
    endTime := some 1
    input := none
    output := none
    reasoning := none
    metrics := none
    evaluations := none
    filtersApplied := none
    metadata := none
    error := none }

/-- Heap with one steps array (address 0), currently empty. -/
def heap0 : StepsHeap := ⟨[[]]⟩

/-- The builder's authoritative execution object, steps array at address 0. -/
def execObj0 : ExecObj :=
  { id := "exec-1"
    name := "exec-1"
    startTime := 0
    endTime := none
    status := .running
    stepsRef := 0
    finalOutput := none
    tags := none }

/-- A subscriber whose callback throws. -/
def throwSub : Subscriber := ⟨0, fun _ => .error "boom"⟩

/-- Subscribers whose callbacks return normally. -/
def okSub1 : Subscriber := ⟨1, fun _ => .ok ()⟩

def okSub2 : Subscriber := ⟨2, fun _ => .ok ()⟩

/-- Store contents for the tags-filter claim. -/
def execC : XRayExecution := mkExec "e-c" 10 (some ["c"])

def execAC : XRayExecution := mkExec "e-ac" 20 (some ["a", "c"])

def storeTags : StoreState := ⟨[("e-c", execC), ("e-ac", execAC)], []⟩

def optsTags : QueryOptions := { tags := some ["a", "b"] }

/-- Store contents for the pagination claim (three executions with distinct
start times). -/
def execP1 : XRayExecution := mkExec "p1" 3 none

def execP2 : XRayExecution := mkExec "p2" 1 none

def execP3 : XRayExecution := mkExec "p3" 2 none

def storePages : StoreState := ⟨[("p1", execP1), ("p2", execP2), ("p3", execP3)], []⟩

/-- Store contents for the zero-limit claim. -/
def storeOne : StoreState := ⟨[("e-c", execC)], []⟩

def optsZeroLimit : QueryOptions := { limit := some 0 }

/-- Empty store for the subscription claims. -/
def storeEmpty : StoreState := ⟨[], []⟩

/-!  ## Helper lemmas -/

theorem applySetter_startTime (b : StepBuilderState) (c : SetterCall) :
    (applySetter b c).startTime = b.startTime ∧
    (applySetter b c).stepData.startTime = b.stepData.startTime := by
  cases c <;>
    simp [applySetter, StepBuilder.withInput, StepBuilder.withFilters,
      StepBuilder.withEvaluations, StepBuilder.withReasoning, StepBuilder.withMetadata]

theorem applySetters_startTime (calls : List SetterCall) (b : StepBuilderState) :
    (applySetters b calls).startTime = b.startTime ∧
    (applySetters b calls).stepData.startTime = b.stepData.startTime := by
  induction calls generalizing b with
  | nil => exact ⟨rfl, rfl⟩
  | cons c cs ih =>
    have h1 := applySetter_startTime b c
    have h2 := ih (applySetter b c)
    exact ⟨h2.1.trans h1.1, h2.2.trans h1.2⟩

/-!  ## Claim C1 -/

/-- C1 is false as stated: `complete` samples the clock twice — once for
`endTime`, once inside the `duration` computation — so when the second
sample (6) is later than the first (5), the recorded
`metrics.duration = 6` differs from `endTime - startTime = 5 - 0`.
(The caller-supplied duration 999 is indeed overridden.) -/
theorem c1_counterexample :
    (StepBuilder.complete sampleInst sampleBuilder Val.null
        (some { StepMetrics.empty with duration := some 999 }) 5 6).2.startTime = 0 ∧
    (StepBuilder.complete sampleInst sampleBuilder Val.null
        (some { StepMetrics.empty with duration := some 999 }) 5 6).2.endTime = some 5 ∧
    (StepBuilder.complete sampleInst sampleBuilder Val.null
        (some { StepMetrics.empty with duration := some 999 }) 5 6).2.metrics.bind
        StepMetrics.duration = some 6 ∧
    (6 : Int) ≠ 5 - 0 :=
  ⟨rfl, rfl, rfl, by decide⟩

/-- C1 (amended): for every `openStep` → (setters)* → `complete(output,
metrics?)` sequence, the resulting step has `status = completed`, and
`metrics.duration` is the second clock sample minus the step's
`startTime`, overriding any caller-supplied duration; whenever the two
clock reads inside `complete` return the same value (`tDur = tEnd`, the
typical case), `duration` equals `endTime - startTime` exactly. -/
theorem c1_complete_status_duration (inst inst2 : XRayInstanceState) (nm : String)
    (ty : StepType) (sid : String) (t0 : Int) (calls : List SetterCall)
    (out : Val) (m : Option StepMetrics) (tEnd tDur : Int) (h : tDur = tEnd) :
    (StepBuilder.complete inst2
        (applySetters (XRayInstance.step inst nm ty sid t0).2 calls) out m tEnd tDur).2.status
      = .completed ∧
    (StepBuilder.complete inst2
        (applySetters (XRayInstance.step inst nm ty sid t0).2 calls) out m tEnd tDur).2.startTime
      = t0 ∧
    (StepBuilder.complete inst2
        (applySetters (XRayInstance.step inst nm ty sid t0).2 calls) out m tEnd tDur).2.endTime
      = some tEnd ∧
    (StepBuilder.complete inst2
        (applySetters (XRayInstance.step inst nm ty sid t0).2 calls) out m tEnd tDur).2.metrics.bind
        StepMetrics.duration = some (tEnd - t0) := by
  subst h
  have hs := applySetters_startTime calls (XRayInstance.step inst nm ty sid t0).2
  refine ⟨rfl, ?_, rfl, ?_⟩
  · show (applySetters (XRayInstance.step inst nm ty sid t0).2 calls).stepData.startTime = t0
    exact hs.2
  · show (mergeMetricsDuration m
        (tDur - (applySetters (XRayInstance.step inst nm ty sid t0).2 calls).startTime)).duration
      = some (tDur - t0)
    rw [hs.1]
    rfl

theorem c1_complete_status_duration_witness :
    (StepBuilder.complete sampleInst
        (applySetters (XRayInstance.step sampleInst "s" .custom "step-1" 0).2
          [SetterCall.withReasoning "r"]) Val.null
        (some { StepMetrics.empty with duration := some 999 }) 7 7).2.status = .completed ∧
    (StepBuilder.complete sampleInst
        (applySetters (XRayInstance.step sampleInst "s" .custom "step-1" 0).2
          [SetterCall.withReasoning "r"]) Val.null
        (some { StepMetrics.empty with duration := some 999 }) 7 7).2.startTime = 0 ∧
    (StepBuilder.complete sampleInst
        (applySetters (XRayInstance.step sampleInst "s" .custom "step-1" 0).2
          [SetterCall.withReasoning "r"]) Val.null
        (some { StepMetrics.empty with duration := some 999 }) 7 7).2.endTime = some 7 ∧
    (StepBuilder.complete sampleInst
        (applySetters (XRayInstance.step sampleInst "s" .custom "step-1" 0).2
          [SetterCall.withReasoning "r"]) Val.null
        (some { StepMetrics.empty with duration := some 999 }) 7 7).2.metrics.bind
        StepMetrics.duration = some (7 - 0) :=
  c1_complete_status_duration sampleInst sampleInst "s" .custom "step-1" 0
    [SetterCall.withReasoning "r"] Val.null
    (some { StepMetrics.empty with duration := some 999 }) 7 7 rfl

/-!  ## Claim C2 -/

/-- C2 is false as stated: opening a step (`XRayInstance.step`) leaves the
execution's step sequence untouched — on a fresh instance the steps list is
still `[]` after `step(...)` returns, so the in-progress (running) step is
not visible to readers of the execution; the push happens only inside
`complete`/`fail`. -/
theorem c2_counterexample :
    (XRayInstance.step sampleInst "keyword_generation" .llm "step-1" 100).1.execution.steps = [] ∧
    (XRayInstance.step sampleInst "keyword_generation" .llm "step-1" 100).1 = sampleInst :=
  ⟨rfl, rfl⟩

/-- C2 (amended): `step` (openStep) creates the running step data but does
not modify the execution at all; the step record is appended to the
execution's step sequence only by the terminal call — `complete` appends it
with `status = completed`, `fail` with `status = failed` — so an
in-progress step is not visible to readers of the execution. -/
theorem c2_append_at_terminal (inst inst2 inst3 : XRayInstanceState) (nm : String)
    (ty : StepType) (sid : String) (t0 : Int) (out : Val) (m : Option StepMetrics)
    (err : String) (t1 t2 t3 t4 : Int) :
    (XRayInstance.step inst nm ty sid t0).1 = inst ∧
    (StepBuilder.complete inst2 (XRayInstance.step inst nm ty sid t0).2 out m t1 t2).1.execution.steps
      = inst2.execution.steps ++
        [(StepBuilder.complete inst2 (XRayInstance.step inst nm ty sid t0).2 out m t1 t2).2] ∧
    (StepBuilder.complete inst2 (XRayInstance.step inst nm ty sid t0).2 out m t1 t2).2.status
      = .completed ∧
    (StepBuilder.fail inst3 (XRayInstance.step inst nm ty sid t0).2 err t3 t4).1.execution.steps
      = inst3.execution.steps ++
        [(StepBuilder.fail inst3 (XRayInstance.step inst nm ty sid t0).2 err t3 t4).2] ∧
    (StepBuilder.fail inst3 (XRayInstance.step inst nm ty sid t0).2 err t3 t4).2.status
      = .failed :=
  ⟨rfl, rfl, rfl, rfl, rfl⟩

/-!  ## Claim C3 -/

/-- C3: `finalize` sets `status = failed` exactly when at least one owned
step has `status = failed` and `status = completed` otherwise (hence for
every execution with zero failed steps, with or without steps), and stamps
`endTime = now` and `finalOutput`; the returned snapshot is the stored
execution. -/
theorem c3_finalize_status (inst : XRayInstanceState) (fo : Option Val) (now : Int) :
    ((XRayInstance.finalize inst fo now).2.status = .failed ↔
      ∃ s ∈ inst.execution.steps, s.status = .failed) ∧
    ((XRayInstance.finalize inst fo now).2.status = .completed ↔
      ¬ ∃ s ∈ inst.execution.steps, s.status = .failed) ∧
    (XRayInstance.finalize inst fo now).2.endTime = some now ∧
    (XRayInstance.finalize inst fo now).2.finalOutput = fo ∧
    (XRayInstance.finalize inst fo now).1.execution = (XRayInstance.finalize inst fo now).2 := by
  refine ⟨?_, ?_, rfl, rfl, rfl⟩ <;>
  · show (if inst.execution.steps.any (fun s => s.status == .failed) then StepStatus.failed
        else StepStatus.completed) = _ ↔ _
    cases h : inst.execution.steps.any (fun s => s.status == .failed) <;>
      simp_all [List.any_eq_true]

/-!  ## Claim C4 -/

/-- C4 is false as stated: a spent sub-builder is not guarded — calling
`complete` a second time on the same sub-builder silently appends a second
step record (with the same step id) to the execution instead of failing or
being a no-op. -/
theorem c4_counterexample :
    (StepBuilder.complete
        (StepBuilder.complete sampleInst sampleBuilder Val.null none 5 5).1
        sampleBuilder (Val.num 2) none 9 9).1.execution.steps.length = 2 ∧
    ((StepBuilder.complete
        (StepBuilder.complete sampleInst sampleBuilder Val.null none 5 5).1
        sampleBuilder (Val.num 2) none 9 9).1.execution.steps.map XRayStep.id)
      = ["step-1", "step-1"] :=
  ⟨rfl, rfl⟩

/-- C4 (amended): the sub-builder is not invalidated by a terminal call:
a second `complete` on the same sub-builder silently appends a second step
record carrying the same step id to the execution's step sequence (the
already-appended terminal step itself, being a spread copy, is not
mutated). -/
theorem c4_spent_builder_appends (inst inst2 : XRayInstanceState) (nm : String)
    (ty : StepType) (sid : String) (t0 : Int) (out1 out2 : Val)
    (m1 m2 : Option StepMetrics) (a1 a2 a3 a4 : Int) :
    (StepBuilder.complete
        (StepBuilder.complete inst2 (XRayInstance.step inst nm ty sid t0).2 out1 m1 a1 a2).1
        (XRayInstance.step inst nm ty sid t0).2 out2 m2 a3 a4).1.execution.steps
      = inst2.execution.steps ++
        [(StepBuilder.complete inst2 (XRayInstance.step inst nm ty sid t0).2 out1 m1 a1 a2).2,
         (StepBuilder.complete
            (StepBuilder.complete inst2 (XRayInstance.step inst nm ty sid t0).2 out1 m1 a1 a2).1
            (XRayInstance.step inst nm ty sid t0).2 out2 m2 a3 a4).2] ∧
    (StepBuilder.complete
        (StepBuilder.complete inst2 (XRayInstance.step inst nm ty sid t0).2 out1 m1 a1 a2).1
        (XRayInstance.step inst nm ty sid t0).2 out2 m2 a3 a4).2.id
      = (StepBuilder.complete inst2 (XRayInstance.step inst nm ty sid t0).2 out1 m1 a1 a2).2.id := by
  refine ⟨?_, rfl⟩
  show (inst2.execution.steps ++ [_]) ++ [_] = inst2.execution.steps ++ [_, _]
  rw [List.append_assoc]
  rfl

/-!  ## Claim C5 -/

/-- C5 is false as stated: `getExecution` is a top-level spread copy, so
the snapshot shares the steps-array reference with the authoritative
execution — pushing a step through the snapshot's reference changes the
steps that the authoritative execution reads from `[]` to
`[sampleStep]`. -/
theorem c5_counterexample :
    StepsHeap.read heap0 execObj0.stepsRef = [] ∧
    (StepsHeap.push heap0 (ExecObj.getExecution execObj0).stepsRef sampleStep).read
        execObj0.stepsRef = [sampleStep] :=
  ⟨rfl, rfl⟩

/-- C5 (amended): `getExecution` returns a shallow copy — the snapshot
holds the same steps-array reference as the authoritative execution, so a
mutation (push) performed through the snapshot is visible through the
authoritative execution; a deep copy, as the spec describes, allocates a
fresh array and a push through it leaves the authoritative steps
unchanged.  The store's `save` likewise keeps the passed object itself
(same steps reference) rather than a value copy. -/
theorem c5_shallow_snapshot (h : StepsHeap) (e : ExecObj) (s : XRayStep)
    (hr : e.stepsRef < h.arrays.length) :
    (ExecObj.getExecution e).stepsRef = e.stepsRef ∧
    (StepsHeap.push h (ExecObj.getExecution e).stepsRef s).read e.stepsRef
      = h.read e.stepsRef ++ [s] ∧
    ((ExecObj.deepCopy h e).1.push (ExecObj.deepCopy h e).2.stepsRef s).read e.stepsRef
      = h.read e.stepsRef ∧
    saveObj [] e = [(e.id, e)] := by
  refine ⟨rfl, ?_, ?_, rfl⟩
  · show (h.arrays.set e.stepsRef (h.arrays.getD e.stepsRef [] ++ [s])).getD e.stepsRef []
        = h.arrays.getD e.stepsRef [] ++ [s]
    rw [List.getD_eq_getElem?_getD, List.getElem?_set_self hr]
    rfl
  · show (((h.arrays ++ [h.read e.stepsRef]).set h.arrays.length
          ((h.arrays ++ [h.read e.stepsRef]).getD h.arrays.length [] ++ [s])).getD e.stepsRef [])
        = h.arrays.getD e.stepsRef []
    rw [List.getD_eq_getElem?_getD, List.getElem?_set_ne (Nat.ne_of_gt hr),
      List.getElem?_append_left hr, ← List.getD_eq_getElem?_getD]

theorem c5_shallow_snapshot_witness :
    (ExecObj.getExecution execObj0).stepsRef = execObj0.stepsRef ∧
    (StepsHeap.push heap0 (ExecObj.getExecution execObj0).stepsRef sampleStep).read
        execObj0.stepsRef = heap0.read execObj0.stepsRef ++ [sampleStep] ∧
    ((ExecObj.deepCopy heap0 execObj0).1.push (ExecObj.deepCopy heap0 execObj0).2.stepsRef
        sampleStep).read execObj0.stepsRef = heap0.read execObj0.stepsRef ∧
    saveObj [] execObj0 = [(execObj0.id, execObj0)] :=
  c5_shallow_snapshot heap0 execObj0 sampleStep (by decide)

/-!  ## Subscriber notification lemmas -/

theorem notifySubscribers_all_ok (subs : List Subscriber) (e : XRayExecution)
    (h : ∀ s ∈ subs, s.run e = .ok ()) :
    notifySubscribers subs e = (subs.map Subscriber.cid, none) := by
  induction subs with
  | nil => rfl
  | cons a as ih =>
    have ha : a.run e = .ok () := h a (List.mem_cons_self a as)
    simp only [notifySubscribers, ha]
    rw [ih (fun s hs => h s (List.mem_cons_of_mem a hs))]
    rfl

theorem notifySubscribers_throw (pre : List Subscriber) (c : Subscriber)
    (post : List Subscriber) (e : XRayExecution) (msg : String)
    (hpre : ∀ s ∈ pre, s.run e = .ok ()) (hc : c.run e = .error msg) :
    notifySubscribers (pre ++ c :: post) e = (pre.map Subscriber.cid ++ [c.cid], some msg) := by
  induction pre with
  | nil => simp only [List.nil_append, notifySubscribers, hc, List.map_nil]
  | cons a as ih =>
    have ha : a.run e = .ok () := hpre a (List.mem_cons_self a as)
    simp only [List.cons_append, notifySubscribers, ha, List.append_eq]
    rw [ih (fun s hs => hpre s (List.mem_cons_of_mem a hs))]
    rfl

/-!  ## Claim C6 -/

/-- C6 is false as stated: with subscribers `[throwSub, okSub1]`, a `save`
lets `throwSub`'s exception propagate to the caller (`some "boom"`), and
`okSub1` is never notified (its identity `1` is absent from the invoked
list `[0]`). -/
theorem c6_counterexample :
    (StoreState.save ⟨[], [throwSub, okSub1]⟩ sampleExec).2.1 = [0] ∧
    (StoreState.save ⟨[], [throwSub, okSub1]⟩ sampleExec).2.2 = some "boom" ∧
    okSub1.cid ∉ (StoreState.save ⟨[], [throwSub, okSub1]⟩ sampleExec).2.1 :=
  ⟨rfl, rfl, by decide⟩

/-- C6 (amended): `save` notifies subscribers with a plain `forEach` and no
per-callback isolation — when the subscribers are `pre ++ [c] ++ post` with
every callback in `pre` returning normally and `c` throwing, exactly the
callbacks of `pre` and then `c` are invoked, the subscribers in `post` are
not notified, and the exception propagates to the caller of `save`; the
execution entry itself is written before notification. -/
theorem c6_save_throw_propagates (exs : List (String × XRayExecution))
    (pre post : List Subscriber) (c : Subscriber) (e : XRayExecution) (msg : String)
    (hpre : ∀ s ∈ pre, s.run e = .ok ()) (hc : c.run e = .error msg) :
    (StoreState.save ⟨exs, pre ++ c :: post⟩ e).2
      = (pre.map Subscriber.cid ++ [c.cid], some msg) ∧
    (StoreState.save ⟨exs, pre ++ c :: post⟩ e).1.executions = mapSet exs e.id e :=
  ⟨notifySubscribers_throw pre c post e msg hpre hc, rfl⟩

theorem c6_save_throw_propagates_witness :
    (StoreState.save ⟨[], [okSub1, throwSub, okSub2]⟩ sampleExec).2 = ([1, 0], some "boom") ∧
    (StoreState.save ⟨[], [okSub1, throwSub, okSub2]⟩ sampleExec).1.executions
      = mapSet [] sampleExec.id sampleExec :=
  c6_save_throw_propagates [] [okSub1] [okSub2] throwSub sampleExec "boom"
    (fun s hs => by rw [List.mem_singleton] at hs; rw [hs]; rfl) rfl

/-!  ## Claim C10 -/

/-- C10: subscribing the same callback (same function reference) twice
registers it only once — the second `subscribe` is a no-op; a `save` then
invokes that callback exactly once (when every registered callback returns
normally); and after the returned unsubscribe action runs, the callback
receives no further notifications. -/
theorem c10_subscribe_dedup (st : StoreState) (c : Subscriber) (e : XRayExecution)
    (hfresh : ∀ s ∈ st.subscribers, s.cid ≠ c.cid)
    (hok : ∀ s ∈ st.subscribers, s.run e = .ok ()) (hcok : c.run e = .ok ()) :
    (st.subscribe c).subscribe c = st.subscribe c ∧
    (((st.subscribe c).subscribe c).save e).2.1.count c.cid = 1 ∧
    ((((st.subscribe c).subscribe c).unsubscribe c).save e).2.1.count c.cid = 0 := by
  have hnotin : st.subscribers.any (fun s => s.cid == c.cid) = false := by
    rw [List.any_eq_false]
    intro s hs
    simpa using hfresh s hs
  have hsub : st.subscribe c = { st with subscribers := st.subscribers ++ [c] } := by
    simp [StoreState.subscribe, hnotin]
  have hsub2 : (st.subscribe c).subscribe c = st.subscribe c := by
    rw [hsub]
    simp [StoreState.subscribe]
  refine ⟨hsub2, ?_, ?_⟩
  · rw [hsub2, hsub]
    show ((StoreState.save ⟨st.executions, st.subscribers ++ [c]⟩ e).2.1).count c.cid = 1
    have : notifySubscribers (st.subscribers ++ [c]) e
        = ((st.subscribers ++ [c]).map Subscriber.cid, none) :=
      notifySubscribers_all_ok _ e (by
        intro s hs
        rcases List.mem_append.mp hs with h | h
        · exact hok s h
        · rw [List.mem_singleton] at h; rw [h]; exact hcok)
    show (notifySubscribers (st.subscribers ++ [c]) e).1.count c.cid = 1
    rw [this]
    simp only [List.map_append, List.count_append, List.map_cons, List.map_nil]
    have h0 : (st.subscribers.map Subscriber.cid).count c.cid = 0 := by
      rw [List.count_eq_zero]
      intro hmem
      rcases List.mem_map.mp hmem with ⟨s, hs, hcid⟩
      exact hfresh s hs hcid
    rw [h0]
    simp
  · rw [hsub2, hsub]
    have hfil : (st.subscribers ++ [c]).filter (fun s => s.cid != c.cid) = st.subscribers := by
      rw [List.filter_append]
      have h1 : st.subscribers.filter (fun s => s.cid != c.cid) = st.subscribers := by
        rw [List.filter_eq_self]
        intro s hs
        simpa using hfresh s hs
      have h2 : [c].filter (fun s => s.cid != c.cid) = [] := by simp
      rw [h1, h2, List.append_nil]
    show (notifySubscribers ((st.subscribers ++ [c]).filter (fun s => s.cid != c.cid)) e).1.count
        c.cid = 0
    rw [hfil, notifySubscribers_all_ok _ e hok]
    rw [List.count_eq_zero]
    intro hmem
    rcases List.mem_map.mp hmem with ⟨s, hs, hcid⟩
    exact hfresh s hs hcid

theorem c10_subscribe_dedup_witness :
    (storeEmpty.subscribe okSub1).subscribe okSub1 = storeEmpty.subscribe okSub1 ∧
    (((storeEmpty.subscribe okSub1).subscribe okSub1).save sampleExec).2.1.count okSub1.cid = 1 ∧
    ((((storeEmpty.subscribe okSub1).subscribe okSub1).unsubscribe okSub1).save
        sampleExec).2.1.count okSub1.cid = 0 :=
  c10_subscribe_dedup storeEmpty okSub1 sampleExec
    (fun s hs => by simp [storeEmpty] at hs)
    (fun s hs => by simp [storeEmpty] at hs)
    rfl

/-!  ## Query lemmas -/

theorem mem_insertSortedBy (le : α → α → Bool) (a x : α) (l : List α) :
    x ∈ insertSortedBy le a l ↔ x = a ∨ x ∈ l := by
  induction l with
  | nil => simp [insertSortedBy]
  | cons b bs ih =>
    simp only [insertSortedBy]
    split
    · simp [List.mem_cons]
    · simp only [List.mem_cons, ih]
      tauto

theorem mem_jsSortBy (le : α → α → Bool) (x : α) (l : List α) :
    x ∈ jsSortBy le l ↔ x ∈ l := by
  induction l with
  | nil => simp [jsSortBy]
  | cons a as ih => simp [jsSortBy, mem_insertSortedBy, ih]

theorem execHasTag_iff (e : XRayExecution) (tag : String) :
    execHasTag e tag = true ↔ tag ∈ e.tags.getD [] := by
  cases h : e.tags <;> simp [execHasTag, h]

/-- The filter/sort pipeline only reads the non-pagination options, so
changing `limit`/`offset` does not change it. -/
theorem queryBase_page (st : StoreState) (o : QueryOptions) (l off : Option Nat) :
    st.queryBase { o with limit := l, offset := off } = st.queryBase o := rfl

theorem queryBase_limit (st : StoreState) (o : QueryOptions) (l : Option Nat) :
    st.queryBase { o with limit := l } = st.queryBase o := rfl

/-- Concatenating `take L` chunks at offsets `0, L, 2L, …` reconstructs the
list once `N` pages cover its length. -/
theorem flatten_take_drop_chunks (L : Nat) :
    ∀ (N : Nat) (l : List α), l.length ≤ N * L →
      ((List.range N).map fun k => (l.drop (k * L)).take L).flatten = l := by
  intro N
  induction N with
  | zero =>
    intro l hl
    have : l = [] := List.length_eq_zero.mp (Nat.le_zero.mp (by simpa using hl))
    simp [this]
  | succ N ih =>
    intro l hl
    rw [List.range_succ_eq_map, List.map_cons, List.flatten_cons, List.map_map]
    have hmap : (List.map ((fun k => (l.drop (k * L)).take L) ∘ Nat.succ) (List.range N))
        = List.map (fun k => ((l.drop L).drop (k * L)).take L) (List.range N) := by
      refine List.map_congr_left ?_
      intro k _
      simp only [Function.comp]
      rw [Nat.succ_mul, Nat.add_comm, ← List.drop_drop]
    rw [hmap, Nat.zero_mul, List.drop_zero]
    rw [ih (l.drop L) (by
      rw [List.length_drop]
      rw [Nat.succ_mul] at hl
      exact Nat.sub_le_of_le_add hl)]
    exact List.take_append_drop L l

/-!  ## Claim C7 -/

/-- C7: with a non-empty `tags` option and no pagination, `findAll` returns
exactly the stored executions whose tag set intersects the supplied tag set
non-emptily (logical OR over the supplied tags), ANDed with the status and
time-range filters. -/
theorem c7_findAll_tags (st : StoreState) (o : QueryOptions) (ts : List String)
    (hts : o.tags = some ts) (hne : ts ≠ []) (hlim : o.limit = none)
    (hoff : o.offset = none) (e : XRayExecution) :
    e ∈ st.findAll o ↔
      e ∈ st.executions.map Prod.snd ∧
      (∀ s, o.status = some s → e.status = s) ∧
      (∃ tag ∈ ts, tag ∈ e.tags.getD []) ∧
      (∀ f, o.fromTime = some f → f ≤ e.startTime) ∧
      (∀ t, o.toTime = some t → e.startTime ≤ t) := by
  have hbase : st.findAll o = st.queryBase o := by
    simp [StoreState.findAll, hlim, hoff, List.take_length]
  rw [hbase]
  unfold StoreState.queryBase
  rw [mem_jsSortBy, hts]
  have hlen : 0 < ts.length := List.length_pos.mpr hne
  cases hst : o.status <;> cases hf : o.fromTime <;> cases ht : o.toTime <;>
    (simp [hlen, List.mem_filter, List.any_eq_true, execHasTag_iff, and_assoc, beq_iff_eq]
     try tauto)

theorem c7_findAll_tags_witness :
    (execAC ∈ storeTags.findAll optsTags ↔
      execAC ∈ storeTags.executions.map Prod.snd ∧
      (∀ s, optsTags.status = some s → execAC.status = s) ∧
      (∃ tag ∈ ["a", "b"], tag ∈ execAC.tags.getD []) ∧
      (∀ f, optsTags.fromTime = some f → f ≤ execAC.startTime) ∧
      (∀ t, optsTags.toTime = some t → execAC.startTime ≤ t)) ∧
    execAC ∈ storeTags.findAll optsTags ∧
    execC ∉ storeTags.findAll optsTags := by
  have hAC := c7_findAll_tags storeTags optsTags ["a", "b"] rfl (by decide) rfl rfl execAC
  have hC := c7_findAll_tags storeTags optsTags ["a", "b"] rfl (by decide) rfl rfl execC
  refine ⟨hAC, ?_, ?_⟩
  · refine hAC.mpr ⟨?_, ?_, ?_, ?_, ?_⟩
    · simp [storeTags]
    · intro s hs; cases hs
    · exact ⟨"a", by decide, by decide⟩
    · intro f hf; cases hf
    · intro t ht; cases ht
  · intro hmem
    have h2 := (hC.mp hmem).2.2.1
    revert h2
    decide

/-!  ## Claim C8 -/

/-- C8: for a fixed store, fixed filter/sort options and a positive page
size `L`, concatenating `findAll` pages at offsets `0, L, 2L, …` (any `N`
pages covering the result length) reconstructs the unpaginated `findAll`
with no duplicate and no missing execution. -/
theorem c8_pagination (st : StoreState) (o : QueryOptions) (L N : Nat) (hL : 0 < L)
    (hlim : o.limit = none) (hoff : o.offset = none)
    (hN : (st.findAll o).length ≤ N * L) :
    ((List.range N).map fun k =>
        st.findAll { o with limit := some L, offset := some (k * L) }).flatten
      = st.findAll o := by
  have hbase : st.findAll o = st.queryBase o := by
    simp [StoreState.findAll, hlim, hoff, List.take_length]
  have hpage : ∀ k, st.findAll { o with limit := some L, offset := some (k * L) }
      = ((st.queryBase o).drop (k * L)).take L := by
    intro k
    show (((st.queryBase { o with limit := some L, offset := some (k * L) }).drop (k * L)).take
        (if L = 0 then (st.queryBase { o with limit := some L, offset := some (k * L) }).length
         else L)) = _
    rw [queryBase_page, if_neg (Nat.pos_iff_ne_zero.mp hL)]
  rw [hbase] at hN ⊢
  calc ((List.range N).map fun k =>
          st.findAll { o with limit := some L, offset := some (k * L) }).flatten
      = ((List.range N).map fun k => ((st.queryBase o).drop (k * L)).take L).flatten := by
        rw [List.map_congr_left (fun k _ => hpage k)]
    _ = st.queryBase o := flatten_take_drop_chunks L N (st.queryBase o) hN

theorem c8_pagination_witness :
    ((List.range 2).map fun k =>
        storePages.findAll { ({} : QueryOptions) with limit := some 2, offset := some (k * 2) }).flatten
      = storePages.findAll {} :=
  c8_pagination storePages {} 2 2 (by decide) rfl rfl (by decide)

/-!  ## Claim C9 -/

/-- C9: `findAll` with `limit: 0` behaves as if no limit were supplied
(`options.limit || results.length` treats `0` as absent), returning the
entire filtered, sorted sequence rather than an empty one. -/
theorem c9_limit_zero (st : StoreState) (o : QueryOptions) (h : o.limit = some 0) :
    st.findAll o = st.findAll { o with limit := none } := by
  show (((st.queryBase o).drop (o.offset.getD 0)).take
      (match o.limit with
       | some l => if l = 0 then (st.queryBase o).length else l
       | none => (st.queryBase o).length))
    = ((st.queryBase { o with limit := none }).drop (({ o with limit := none } :
        QueryOptions).offset.getD 0)).take (st.queryBase { o with limit := none }).length
  rw [h, queryBase_limit]
  rfl

theorem c9_limit_zero_witness :
    storeOne.findAll optsZeroLimit = storeOne.findAll { optsZeroLimit with limit := none } ∧
    storeOne.findAll optsZeroLimit = [execC] :=
  ⟨c9_limit_zero storeOne optsZeroLimit rfl, rfl⟩
